import Mathlib

/-!
Verification of the tcping TCP-probe tool (src/main.go) against its
natural-language specification.

The Go source is shallowly embedded: the `Statistics` aggregator becomes a
Lean structure with `update`/`getStats` translated field by field (Go
`int64` counters become `Int`, Go `float64` times become `Rat`, the
idealisation of IEEE arithmetic used throughout this development); the
probe executor `pingOnce` and the probe loop in `main` become pure
functions over explicit oracles for the dial outcome and the cancellation
of the shared context; `resolveAddress` and `validateOptions` become pure
functions over the parse/lookup results.  Effects (printed lines, the
opened/closed state of a connection) are reified as data so that theorems
can speak about them.
-/

namespace Tcping

/-- Embeds the Go struct `Statistics` (main.go lines 24-31).  The mutex is
not represented: every theorem below is about the sequential semantics of
`update`/`getStats`, which in Go always run under the lock.  Go's zero
value initialisation gives all fields 0. -/
structure Statistics where
  sentCount : Int
  respondedCount : Int
  minTime : Rat
  maxTime : Rat
  totalTime : Rat
deriving DecidableEq

/-- The zero value a fresh `&Statistics{}` has in Go (main.go line 398). -/
def Statistics.init : Statistics :=
  { sentCount := 0, respondedCount := 0, minTime := 0, maxTime := 0, totalTime := 0 }

/-- Embeds `func (s *Statistics) update(elapsed float64, success bool)`
(main.go lines 33-60): increment sentCount; on failure return; otherwise
increment respondedCount, accumulate totalTime; on the first response set
minTime and maxTime to elapsed; otherwise lower minTime / raise maxTime
when elapsed is strictly outside the current range. -/
def Statistics.update (s : Statistics) (elapsed : Rat) (success : Bool) : Statistics :=
  let s1 := { s with sentCount := s.sentCount + 1 }
  if !success then s1
  else
    let s2 := { s1 with respondedCount := s1.respondedCount + 1,
                        totalTime := s1.totalTime + elapsed }
    if s2.respondedCount = 1 then { s2 with minTime := elapsed, maxTime := elapsed }
    else
      let s3 := if elapsed < s2.minTime then { s2 with minTime := elapsed } else s2
      if elapsed > s3.maxTime then { s3 with maxTime := elapsed } else s3

/-- Embeds `func (s *Statistics) getStats()` (main.go lines 62-72):
returns (sent, responded, min, max, avg) where avg is totalTime divided
by respondedCount when respondedCount > 0 and 0.0 otherwise. -/
def Statistics.getStats (s : Statistics) : Int × Int × Rat × Rat × Rat :=
  (s.sentCount, s.respondedCount, s.minTime, s.maxTime,
    if 0 < s.respondedCount then s.totalTime / (s.respondedCount : Rat) else 0)

/-- The aggregator state after a sequence of `update` calls starting from
the zero value: `calls` lists each call's (elapsed, success) arguments. -/
def Agg (calls : List (Rat × Bool)) : Statistics :=
  calls.foldl (fun s c => s.update c.1 c.2) Statistics.init

/-- The elapsed values of the successful calls, in order. -/
def successElapsed (calls : List (Rat × Bool)) : List Rat :=
  calls.filterMap (fun c => if c.2 then some c.1 else none)

theorem Agg_append (calls : List (Rat × Bool)) (c : Rat × Bool) :
    Agg (calls ++ [c]) = (Agg calls).update c.1 c.2 := by
  simp [Agg, List.foldl_append]

theorem successElapsed_append (calls : List (Rat × Bool)) (c : Rat × Bool) :
    successElapsed (calls ++ [c]) =
      successElapsed calls ++ (if c.2 then [c.1] else []) := by
  cases h : c.2 <;> simp [successElapsed, h]

/-- The correspondence between an aggregator state and the history that
produced it: counters match, totalTime is the sum of the successful
elapsed values, and min/max bound every successful elapsed value. -/
def Good (s : Statistics) (n : Nat) (succs : List Rat) : Prop :=
  s.sentCount = n ∧ s.respondedCount = succs.length ∧ s.totalTime = succs.sum ∧
    ∀ e ∈ succs, s.minTime ≤ e ∧ e ≤ s.maxTime

theorem good_init : Good Statistics.init 0 [] := by
  simp [Good, Statistics.init]

theorem update_false (s : Statistics) (e : Rat) :
    s.update e false = { s with sentCount := s.sentCount + 1 } := by
  simp [Statistics.update]

/-- On the first response (`respondedCount` was 0), `update` sets minTime
and maxTime to the elapsed value. -/
theorem update_true_first (s : Statistics) (e : Rat) (h : s.respondedCount = 0) :
    s.update e true =
      { sentCount := s.sentCount + 1, respondedCount := 1,
        minTime := e, maxTime := e, totalTime := s.totalTime + e } := by
  simp [Statistics.update, h]

/-- On a later response, `update` lowers minTime / raises maxTime. -/
theorem update_true_later (s : Statistics) (e : Rat) (h : ¬ s.respondedCount + 1 = 1) :
    s.update e true =
      { sentCount := s.sentCount + 1, respondedCount := s.respondedCount + 1,
        minTime := min e s.minTime, maxTime := max e s.maxTime,
        totalTime := s.totalTime + e } := by
  unfold Statistics.update
  simp only [Bool.not_true, Bool.false_eq_true, if_false, if_neg h]
  by_cases hmin : e < s.minTime <;> by_cases hmax : e > s.maxTime <;>
    simp [hmin, hmax, min_def, max_def, le_of_lt, le_of_not_lt]

theorem good_update_false (s : Statistics) (n : Nat) (succs : List Rat) (e : Rat)
    (h : Good s n succs) : Good (s.update e false) (n + 1) succs := by
  obtain ⟨h1, h2, h3, h4⟩ := h
  refine ⟨?_, ?_, ?_, ?_⟩
  · simp [update_false, h1]
  · simp [update_false, h2]
  · simp [update_false, h3]
  · simpa [update_false] using h4

theorem good_update_true (s : Statistics) (n : Nat) (succs : List Rat) (e : Rat)
    (h : Good s n succs) : Good (s.update e true) (n + 1) (succs ++ [e]) := by
  obtain ⟨h1, h2, h3, h4⟩ := h
  cases succs with
  | nil =>
    have h0 : s.respondedCount = 0 := by simpa using h2
    rw [update_true_first s e h0]
    refine ⟨?_, ?_, ?_, ?_⟩ <;> simp [h1, h3]
  | cons a as =>
    have hr : ¬ s.respondedCount + 1 = 1 := by
      simp [h2]
      omega
    rw [update_true_later s e hr]
    refine ⟨?_, ?_, ?_, ?_⟩
    · simp [h1]
    · simp [h2]
    · simp [h3]
      ring
    · intro x hx
      rcases List.mem_append.mp hx with hx | hx
      · have hb := h4 x hx
        exact ⟨le_trans (min_le_right _ _) hb.1, le_trans hb.2 (le_max_right _ _)⟩
      · have hx' : x = e := by simpa using hx
        rw [hx']
        exact ⟨min_le_left _ _, le_max_left _ _⟩

theorem good_Agg (calls : List (Rat × Bool)) :
    Good (Agg calls) calls.length (successElapsed calls) := by
  induction calls using List.reverseRecOn with
  | nil => simpa [Agg, successElapsed] using good_init
  | append_singleton xs c ih =>
    rw [Agg_append, successElapsed_append]
    cases hc : c.2 with
    | false =>
      simpa [hc] using good_update_false (Agg xs) xs.length (successElapsed xs) c.1 ih
    | true =>
      simpa [hc] using good_update_true (Agg xs) xs.length (successElapsed xs) c.1 ih

/-- Claim C1: after any sequence of N update calls of which k succeed, the
aggregator has sentCount = N, respondedCount = k, totalTime = the sum of
the successful elapsed values, minTime/maxTime bound every successful
elapsed value, the snapshot's avg is totalTime/k when k > 0 and 0 when
k = 0, and the first success sets minTime and maxTime to its elapsed
value. -/
theorem claim_C1 (calls : List (Rat × Bool)) :
    (Agg calls).sentCount = calls.length ∧
    (Agg calls).respondedCount = (successElapsed calls).length ∧
    (Agg calls).totalTime = (successElapsed calls).sum ∧
    (∀ e ∈ successElapsed calls, (Agg calls).minTime ≤ e ∧ e ≤ (Agg calls).maxTime) ∧
    ((Agg calls).getStats.2.2.2.2 =
      if (successElapsed calls).length = 0 then 0
      else (successElapsed calls).sum / ((successElapsed calls).length : Rat)) ∧
    (∀ (pre : List (Rat × Bool)) (e : Rat), successElapsed pre = [] →
      (Agg (pre ++ [(e, true)])).minTime = e ∧ (Agg (pre ++ [(e, true)])).maxTime = e) := by
  obtain ⟨h1, h2, h3, h4⟩ := good_Agg calls
  refine ⟨h1, h2, h3, h4, ?_, ?_⟩
  · simp only [Statistics.getStats, h2, h3]
    by_cases hk : (successElapsed calls).length = 0
    · simp [hk]
    · have hpos : (0 : Int) < ((successElapsed calls).length : Int) := by omega
      rw [if_pos hpos, if_neg hk]
      push_cast
      rfl
  · intro pre e hpre
    have h0 : (Agg pre).respondedCount = 0 := by
      have hgp := (good_Agg pre).2.1
      rw [hpre] at hgp
      simpa using hgp
    rw [Agg_append, update_true_first _ _ h0]
    exact ⟨rfl, rfl⟩

theorem claim_C1_witness :
    ((2 : Rat) ∈ successElapsed [((5 : Rat), true), ((3 : Rat), false), ((2 : Rat), true)]) ∧
    (Agg [((5 : Rat), true), ((3 : Rat), false), ((2 : Rat), true)]).minTime ≤ (2 : Rat) ∧
    successElapsed [((9 : Rat), false)] = [] ∧
    (Agg ([((9 : Rat), false)] ++ [((7 : Rat), true)])).minTime = 7 := by
  have hmem : (2 : Rat) ∈ successElapsed [((5 : Rat), true), ((3 : Rat), false), ((2 : Rat), true)] := by
    simp [successElapsed]
  have hpre : successElapsed [((9 : Rat), false)] = [] := by
    simp [successElapsed]
  exact ⟨hmem, ((claim_C1 _).2.2.2.1 2 hmem).1, hpre,
    ((claim_C1 []).2.2.2.2.2 [((9 : Rat), false)] 7 hpre).1⟩

/-- The data-model invariant of the aggregator (spec section 3):
respondedCount never exceeds sentCount, and once there is a response the
recorded minimum does not exceed the recorded maximum. -/
def StatsInv (s : Statistics) : Prop :=
  s.respondedCount ≤ s.sentCount ∧ (1 ≤ s.respondedCount → s.minTime ≤ s.maxTime)

theorem statsInv_init : StatsInv Statistics.init := by
  constructor
  · simp [Statistics.init]
  · intro h
    simp [Statistics.init] at h

theorem statsInv_update (s : Statistics) (e : Rat) (ok : Bool) (h : StatsInv s) :
    StatsInv (s.update e ok) := by
  obtain ⟨hc, hm⟩ := h
  cases ok with
  | false =>
    rw [update_false]
    exact ⟨by simpa using le_trans hc (by omega), hm⟩
  | true =>
    by_cases hr : s.respondedCount + 1 = 1
    · have h0 : s.respondedCount = 0 := by omega
      rw [update_true_first s e h0]
      refine ⟨?_, fun _ => le_refl e⟩
      have : (0 : Int) ≤ s.sentCount := h0 ▸ hc
      simpa using this
    · rw [update_true_later s e hr]
      refine ⟨by simpa using hc, fun _ => ?_⟩
      exact le_trans (min_le_left e s.minTime) (le_max_left e s.maxTime)

/-- Claim C4: every reachable aggregator state satisfies
respondedCount ≤ sentCount and minTime ≤ maxTime once respondedCount ≥ 1;
both counters are non-decreasing across each update, and every update
preserves the invariant. -/
theorem claim_C4 :
    (∀ calls : List (Rat × Bool), StatsInv (Agg calls)) ∧
    (∀ (s : Statistics) (e : Rat) (ok : Bool),
        s.sentCount ≤ (s.update e ok).sentCount ∧
        s.respondedCount ≤ (s.update e ok).respondedCount) ∧
    (∀ (s : Statistics) (e : Rat) (ok : Bool), StatsInv s → StatsInv (s.update e ok)) := by
  refine ⟨?_, ?_, fun s e ok h => statsInv_update s e ok h⟩
  · intro calls
    induction calls using List.reverseRecOn with
    | nil => exact statsInv_init
    | append_singleton xs c ih =>
      rw [Agg_append]
      exact statsInv_update _ _ _ ih
  · intro s e ok
    cases ok with
    | false =>
      rw [update_false]
      constructor <;> simp
    | true =>
      by_cases hr : s.respondedCount + 1 = 1
      · have h0 : s.respondedCount = 0 := by omega
        rw [update_true_first s e h0]
        constructor <;> simp [h0]
      · rw [update_true_later s e hr]
        constructor <;> simp

theorem claim_C4_witness :
    StatsInv (Agg [((1 : Rat), true), ((4 : Rat), false)]) ∧
    StatsInv Statistics.init ∧
    StatsInv (Statistics.init.update 2 true) := by
  have hinit : StatsInv Statistics.init := by
    constructor
    · simp [Statistics.init]
    · intro h
      simp [Statistics.init] at h
  exact ⟨claim_C4.1 _, hinit, claim_C4.2.2 Statistics.init 2 true hinit⟩

/-- The line a single probe attempt prints (main.go lines 219, 228, 239):
an interruption notice, a failure line, or a success line. -/
inductive PingMsg where
  | interruptNotice : PingMsg
  | failureLine (seq : Nat) : PingMsg
  | successLine (seq : Nat) : PingMsg
deriving DecidableEq

/-- The observable outcome of one `pingOnce` call: the aggregator state it
leaves behind, the line it prints, and whether the dial opened a
connection and whether that connection was closed before returning. -/
structure PingResult where
  newStats : Statistics
  msg : PingMsg
  connOpened : Bool
  connClosed : Bool
deriving DecidableEq

/-- Embeds `func pingOnce` (main.go lines 206-246).  The network is
abstracted by two oracles: `dialOk` tells whether `d.DialContext`
returned a nil error (so a connection was opened), and `parentCanceled`
tells whether `ctx.Err() == context.Canceled` held at the check on line
218 (the parent context is a `WithCancel` context, so its error is either
nil or Canceled, never DeadlineExceeded).  The code: if the parent is
canceled it prints the interruption notice and returns at once — before
the `stats.update` call on line 225 and before the `defer conn.Close()`
on line 238; otherwise it updates the statistics with the success flag
and prints a failure or success line, closing the connection on the
success path. -/
def pingOnce (stats : Statistics) (elapsed : Rat) (dialOk parentCanceled : Bool)
    (seq : Nat) : PingResult :=
  if parentCanceled then
    { newStats := stats, msg := .interruptNotice, connOpened := dialOk, connClosed := false }
  else
    let stats2 := stats.update elapsed dialOk
    if dialOk then
      { newStats := stats2, msg := .successLine seq, connOpened := true, connClosed := true }
    else
      { newStats := stats2, msg := .failureLine seq, connOpened := false, connClosed := false }

/-- Claim C3 evaluated at its failing input: when the dial succeeds
(`dialOk = true`, a connection is open) but the parent context is already
canceled at the line-218 check, `pingOnce` returns with the connection
still open — the early return precedes `defer conn.Close()`. -/
theorem claim_C3_eval :
    (pingOnce Statistics.init 5 true true 0).connOpened = true ∧
    (pingOnce Statistics.init 5 true true 0).connClosed = false := by
  exact ⟨rfl, rfl⟩

/-- `pingOnce` with the parent context not canceled updates the
statistics with the dial outcome and prints a success or failure line. -/
theorem pingOnce_not_canceled (s : Statistics) (e : Rat) (d : Bool) (q : Nat) :
    pingOnce s e d false q =
      { newStats := s.update e d,
        msg := if d then .successLine q else .failureLine q,
        connOpened := d, connClosed := d } := by
  cases d <;> simp [pingOnce]

/-- Whether the shared context is observed canceled at the pre-attempt
check of iteration `i` (the `select` with `default` on main.go lines
416-420).  Cancellation is modelled by `cancelAt`: `some t` means the
context is canceled while attempt `t` is in flight, `none` means it is
never canceled; so the pre-attempt check of iteration `i` sees the
cancellation iff `t < i`. -/
def preCanceled (cancelAt : Option Nat) (i : Nat) : Bool :=
  match cancelAt with
  | none => false
  | some t => decide (t < i)

/-- Whether the context is canceled by the time attempt `i` checks
`ctx.Err()` inside `pingOnce`, or at the inter-attempt wait after attempt
`i` (main.go lines 431-435): with cancellation in flight at attempt `t`,
this holds iff `t ≤ i`. -/
def duringCanceled (cancelAt : Option Nat) (i : Nat) : Bool :=
  match cancelAt with
  | none => false
  | some t => decide (t ≤ i)

/-- Embeds the probe-loop goroutine of `main` (main.go lines 414-436) as
a fuel-indexed recursion.  `count` is opts.Count; `E i` / `D i` are the
elapsed value and dial outcome of attempt `i`.  Each iteration mirrors
the Go loop body: the `for` condition `opts.Count == 0 || i < opts.Count`;
the pre-attempt cancellation `select` (return); the `pingOnce` call; the
`break` when `opts.Count != 0 && i == opts.Count-1`; and the interval
wait racing against cancellation (return).  The result is the list of
printed per-attempt lines, the final aggregator state, and whether the
loop exited (`false` means the fuel ran out with the loop still
running). -/
def loopRun (count : Nat) (cancelAt : Option Nat) (E : Nat → Rat) (D : Nat → Bool) :
    Nat → Nat → Statistics → List PingMsg × Statistics × Bool
  | 0, _, s => ([], s, false)
  | fuel + 1, i, s =>
    if ¬ (count = 0 ∨ i < count) then ([], s, true)
    else if preCanceled cancelAt i then ([], s, true)
    else
      let r := pingOnce s (E i) (D i) (duringCanceled cancelAt i) i
      if count ≠ 0 ∧ i = count - 1 then ([r.msg], r.newStats, true)
      else if duringCanceled cancelAt i then ([r.msg], r.newStats, true)
      else
        let rest := loopRun count cancelAt E D fuel (i + 1) r.newStats
        (r.msg :: rest.1, rest.2)

/-- With a bounded count, no cancellation, and enough fuel, the loop
performs exactly the attempts `i, i+1, ..., n-1` and exits. -/
theorem loopRun_bounded (n : Nat) (E : Nat → Rat) (D : Nat → Bool) :
    ∀ (fuel i : Nat) (s : Statistics), i < n → n ≤ fuel + i →
      loopRun n none E D fuel i s =
        ((List.range' i (n - i)).map
            (fun j => if D j then PingMsg.successLine j else PingMsg.failureLine j),
         (List.range' i (n - i)).foldl (fun st j => st.update (E j) (D j)) s,
         true) := by
  intro fuel
  induction fuel with
  | zero => intro i s hi hn; omega
  | succ fuel ih =>
    intro i s hi hn
    have hcond : ¬ ¬ (n = 0 ∨ i < n) := by simp [hi]
    rw [loopRun, if_neg hcond]
    simp only [preCanceled, duringCanceled, Bool.false_eq_true, if_false]
    rw [pingOnce_not_canceled]
    by_cases hlast : n ≠ 0 ∧ i = n - 1
    · rw [if_pos hlast]
      have hni : n - i = 1 := by omega
      rw [hni, List.range'_succ]
      simp
    · rw [if_neg hlast]
      have hstep : i + 1 < n := by omega
      have hrec := ih (i + 1) (Statistics.update s (E i) (D i)) hstep (by omega)
      simp only [hrec]
      have hni : n - i = (n - (i + 1)) + 1 := by omega
      rw [hni, List.range'_succ]
      simp

/-- With count = 0 and no cancellation, the loop never exits, whatever
the fuel: there is no natural exhaustion when unbounded. -/
theorem loopRun_unbounded (E : Nat → Rat) (D : Nat → Bool) :
    ∀ (fuel i : Nat) (s : Statistics), (loopRun 0 none E D fuel i s).2.2 = false := by
  intro fuel
  induction fuel with
  | zero => intro i s; rfl
  | succ fuel ih =>
    intro i s
    rw [loopRun]
    simp only [preCanceled, duringCanceled]
    simp [ih]

/-- Claim C5: with count = n > 0 and no cancellation the loop performs
exactly n attempts with sequence numbers 0 through n-1 (each printing its
result line and updating the statistics) and then exits; with count = 0
it never exits by natural exhaustion, whatever bound is placed on its
running time. -/
theorem claim_C5 (n fuel : Nat) (E : Nat → Rat) (D : Nat → Bool) :
    (0 < n → n ≤ fuel →
      loopRun n none E D fuel 0 Statistics.init =
        ((List.range' 0 n).map
            (fun j => if D j then PingMsg.successLine j else PingMsg.failureLine j),
         (List.range' 0 n).foldl (fun st j => st.update (E j) (D j)) Statistics.init,
         true) ∧
      ((List.range' 0 n).foldl (fun st j => st.update (E j) (D j)) Statistics.init).sentCount = n) ∧
    (loopRun 0 none E D fuel 0 Statistics.init).2.2 = false := by
  constructor
  · intro hn hf
    constructor
    · have h := loopRun_bounded n E D fuel 0 Statistics.init hn (by omega)
      simpa using h
    · have hgen : ∀ (l : List Nat) (s : Statistics),
          (l.foldl (fun st j => st.update (E j) (D j)) s).sentCount = s.sentCount + l.length := by
        intro l
        induction l with
        | nil => intro s; simp
        | cons a as iha =>
          intro s
          have hsent : (s.update (E a) (D a)).sentCount = s.sentCount + 1 := by
            cases hD : D a
            · rw [update_false]
            · by_cases hr : s.respondedCount + 1 = 1
              · rw [update_true_first s _ (by omega)]
              · rw [update_true_later s _ hr]
          simp [List.foldl_cons, iha, hsent]
          ring
      rw [hgen]
      simp [Statistics.init]
  · exact loopRun_unbounded E D fuel 0 Statistics.init

theorem claim_C5_witness :
    loopRun 2 none (fun _ => (1 : Rat)) (fun _ => false) 3 0 Statistics.init =
      ((List.range' 0 2).map
          (fun j => if (fun _ => false) j then PingMsg.successLine j else PingMsg.failureLine j),
       (List.range' 0 2).foldl
          (fun st j => st.update ((fun _ => (1 : Rat)) j) ((fun _ => false) j)) Statistics.init,
       true) :=
  (((claim_C5 2 3 (fun _ => (1 : Rat)) (fun _ => false)).1 (by decide) (by decide))).1

/-- With cancellation arriving during attempt `t` (and `t` within the
configured bound), the loop performs attempts `i..t-1` normally, attempt
`t` observes the cancellation (notice, no update), and the loop exits. -/
theorem loopRun_canceled (count t : Nat) (E : Nat → Rat) (D : Nat → Bool)
    (hc : count = 0 ∨ t < count) :
    ∀ (fuel i : Nat) (s : Statistics), i ≤ t → t + 1 ≤ fuel + i →
      loopRun count (some t) E D fuel i s =
        ((List.range' i (t - i)).map
            (fun j => if D j then PingMsg.successLine j else PingMsg.failureLine j)
              ++ [PingMsg.interruptNotice],
         (List.range' i (t - i)).foldl (fun st j => st.update (E j) (D j)) s,
         true) := by
  intro fuel
  induction fuel with
  | zero => intro i s hi hf; omega
  | succ fuel ih =>
    intro i s hi hf
    have hcond : ¬ ¬ (count = 0 ∨ i < count) := by
      rcases hc with hc | hc
      · simp [hc]
      · have : i < count := by omega
        simp [this]
    rw [loopRun, if_neg hcond]
    have hpre : preCanceled (some t) i = false := by
      simp [preCanceled]
      omega
    rw [hpre]
    simp only [Bool.false_eq_true, if_false]
    by_cases hit : i = t
    · subst hit
      have hdur : duringCanceled (some i) i = true := by simp [duringCanceled]
      rw [hdur]
      simp only [pingOnce, if_pos rfl]
      have hrange : i - i = 0 := by omega
      by_cases hlast : count ≠ 0 ∧ i = count - 1
      · rw [if_pos hlast]
        simp [hrange]
      · rw [if_neg hlast]
        simp [hrange]
    · have hlt : i < t := by omega
      have hdur : duringCanceled (some t) i = false := by
        simp [duringCanceled]
        omega
      rw [hdur]
      rw [pingOnce_not_canceled]
      have hlast : ¬ (count ≠ 0 ∧ i = count - 1) := by
        rcases hc with hc | hc
        · simp [hc]
        · intro hand
          omega
      rw [if_neg hlast]
      simp only [Bool.false_eq_true, if_false]
      have hrec := ih (i + 1) (Statistics.update s (E i) (D i)) (by omega) (by omega)
      simp only [hrec]
      have hti : t - i = (t - (i + 1)) + 1 := by omega
      rw [hti, List.range'_succ]
      simp

/-- Claim C6: when the parent context's cancellation is observed by an
attempt after its connect call returns, that attempt performs no
statistics update and prints the interruption notice instead of a result
line (second conjunct), and the loop exits with the final statistics
reflecting only the attempts before it — the interrupted attempt is
counted neither as sent nor as failed (first conjunct). -/
theorem claim_C6 (count t fuel : Nat) (E : Nat → Rat) (D : Nat → Bool)
    (hc : count = 0 ∨ t < count) (hf : t + 1 ≤ fuel) :
    loopRun count (some t) E D fuel 0 Statistics.init =
      ((List.range' 0 t).map
          (fun j => if D j then PingMsg.successLine j else PingMsg.failureLine j)
            ++ [PingMsg.interruptNotice],
       (List.range' 0 t).foldl (fun st j => st.update (E j) (D j)) Statistics.init,
       true) ∧
    (∀ (s : Statistics) (e : Rat) (d : Bool) (q : Nat),
      (pingOnce s e d true q).newStats = s ∧
      (pingOnce s e d true q).msg = PingMsg.interruptNotice) := by
  constructor
  · have h := loopRun_canceled count t E D hc fuel 0 Statistics.init (by omega) (by omega)
    simpa using h
  · intro s e d q
    exact ⟨rfl, rfl⟩

theorem claim_C6_witness :
    loopRun 3 (some 1) (fun _ => (1 : Rat)) (fun _ => true) 5 0 Statistics.init =
      ((List.range' 0 1).map
          (fun j => if (fun _ => true) j then PingMsg.successLine j else PingMsg.failureLine j)
            ++ [PingMsg.interruptNotice],
       (List.range' 0 1).foldl
          (fun st j => st.update ((fun _ => (1 : Rat)) j) ((fun _ => true) j)) Statistics.init,
       true) :=
  (claim_C6 3 1 5 (fun _ => (1 : Rat)) (fun _ => true) (Or.inr (by decide)) (by decide)).1

/-- The observable actions of `main`'s shutdown path (main.go lines
439-453). -/
inductive MainEvent where
  | interruptMsg : MainEvent
  | cancelCtx : MainEvent
  | joinLoop : MainEvent
  | snapshot : MainEvent
deriving DecidableEq

/-- Embeds the shutdown `select` of `main` (main.go lines 446-453) as the
sequence of actions main performs, by which branch wins the race.
Receiving from the `done` channel means `wg.Wait()` returned, i.e. the
probe-loop goroutine has exited (`joinLoop`); the interrupt branch prints
the interruption message and calls `cancel()`.  Both branches then fall
through to `printTCPingStatistics`, whose `getStats` call is the
`snapshot` action.  The code contains no further wait between `cancel()`
and the snapshot on the interrupt branch. -/
def shutdownTrace (interruptWins : Bool) : List MainEvent :=
  if interruptWins then [.interruptMsg, .cancelCtx, .snapshot]
  else [.joinLoop, .snapshot]

/-- Counterexample to claim C2: on the interrupt branch `main` never
joins the probe-loop goroutine before taking the snapshot — `joinLoop`
does not occur in the interrupt-path trace at all, so the goroutine has
not necessarily exited when `getStats` runs. -/
theorem claim_C2_counterexample : MainEvent.joinLoop ∉ shutdownTrace true := by
  decide

/-- Claim C2 amended: only when the loop's natural completion wins the
race (the `done` channel) has the probe-loop goroutine fully exited
before the snapshot; when the OS interrupt wins, `main` prints the
notice, cancels the context and proceeds directly to the snapshot
without waiting for the goroutine. -/
theorem claim_C2_amended :
    shutdownTrace false = [MainEvent.joinLoop, MainEvent.snapshot] ∧
    shutdownTrace true = [MainEvent.interruptMsg, MainEvent.cancelCtx, MainEvent.snapshot] ∧
    MainEvent.joinLoop ∉ shutdownTrace true := by
  refine ⟨rfl, rfl, ?_⟩
  decide

/-- A parsed IP as `resolveAddress` uses it: `v4` is whether
`ip.To4() != nil`, and `str` is the canonical rendering `ip.String()`. -/
structure IPAddr where
  v4 : Bool
  str : String
deriving DecidableEq

/-- The distinct error exits of `resolveAddress` (main.go lines 136, 139,
150, 154, 163, 172). -/
inductive ResolveErr where
  | notIPv4Literal : ResolveErr
  | notIPv6Literal : ResolveErr
  | lookupFailed : ResolveErr
  | emptyList : ResolveErr
  | noIPv4Found : ResolveErr
  | noIPv6Found : ResolveErr
deriving DecidableEq

/-- Embeds `func resolveAddress` (main.go lines 131-196).  `parsed` is
the result of `net.ParseIP(address)` (`none` when the host is not a
literal IP) and `lookup` the result of `net.LookupIP(address)` (`none`
when the lookup errors).  The branches mirror the source: a literal is
checked against the requested family and rendered bracketed when IPv6;
otherwise the candidate list is scanned — first candidate of the
requested family, or with no request the first IPv4 candidate, falling
back to the first IPv6 candidate, with the source's unreachable
`ipList[0]` fallback kept verbatim. -/
def resolveAddress (parsed : Option IPAddr) (lookup : Option (List IPAddr))
    (useIPv4 useIPv6 : Bool) : Except ResolveErr String :=
  match parsed with
  | some ip =>
    if useIPv4 && !ip.v4 then .error .notIPv4Literal
    else if useIPv6 && ip.v4 then .error .notIPv6Literal
    else if !ip.v4 then .ok ("[" ++ ip.str ++ "]")
    else .ok ip.str
  | none =>
    match lookup with
    | none => .error .lookupFailed
    | some ipList =>
      if ipList.length = 0 then .error .emptyList
      else if useIPv4 then
        match ipList.find? (fun ip => ip.v4) with
        | some ip => .ok ip.str
        | none => .error .noIPv4Found
      else if useIPv6 then
        match ipList.find? (fun ip => !ip.v4) with
        | some ip => .ok ("[" ++ ip.str ++ "]")
        | none => .error .noIPv6Found
      else
        match ipList.find? (fun ip => ip.v4) with
        | some ip => .ok ip.str
        | none =>
          match ipList.find? (fun ip => !ip.v4) with
          | some ip => .ok ("[" ++ ip.str ++ "]")
          | none =>
            match ipList with
            | ip :: _ => if !ip.v4 then .ok ("[" ++ ip.str ++ "]") else .ok ip.str
            | [] => .error .emptyList

/-- Claim C7: for a literal IP, a family mismatch fails (IPv4 requested
but not IPv4, or IPv6 requested but IPv4); otherwise the IPv4 literal is
returned bare and an IPv6 literal is returned wrapped in brackets. -/
theorem claim_C7 (ip : IPAddr) (lk : Option (List IPAddr)) (u4 u6 : Bool) :
    (u4 = true → ip.v4 = false →
      resolveAddress (some ip) lk u4 u6 = .error .notIPv4Literal) ∧
    (u6 = true → ip.v4 = true →
      resolveAddress (some ip) lk u4 u6 = .error .notIPv6Literal) ∧
    (ip.v4 = true → ¬ u6 = true →
      resolveAddress (some ip) lk u4 u6 = .ok ip.str) ∧
    (ip.v4 = false → ¬ u4 = true →
      resolveAddress (some ip) lk u4 u6 = .ok ("[" ++ ip.str ++ "]")) := by
  obtain ⟨v4, st⟩ := ip
  cases v4 <;> cases u4 <;> cases u6 <;> simp [resolveAddress]

theorem claim_C7_witness :
    resolveAddress (some ⟨true, "127.0.0.1"⟩) none true false = .ok "127.0.0.1" ∧
    resolveAddress (some ⟨true, "127.0.0.1"⟩) none false true =
      .error .notIPv6Literal := by
  constructor
  · exact (claim_C7 ⟨true, "127.0.0.1"⟩ none true false).2.2.1 rfl (by decide)
  · exact (claim_C7 ⟨true, "127.0.0.1"⟩ none false true).2.1 rfl rfl

/-- Claim C8: for a non-literal host with a non-empty candidate list, an
explicitly requested family picks the first candidate of that family or
fails when none matches; with no family requested the first IPv4
candidate is returned, falling back to the first IPv6 candidate
(bracketed) only when no IPv4 candidate exists; a lookup error or an
empty list is a resolution failure. -/
theorem claim_C8 (l : List IPAddr) (u4 u6 : Bool) (hne : l ≠ []) :
    (u4 = true → ∀ ip, l.find? (fun a => a.v4) = some ip →
        resolveAddress none (some l) u4 u6 = .ok ip.str) ∧
    (u4 = true → l.find? (fun a => a.v4) = none →
        resolveAddress none (some l) u4 u6 = .error .noIPv4Found) ∧
    (u4 = false → u6 = true → ∀ ip, l.find? (fun a => !a.v4) = some ip →
        resolveAddress none (some l) u4 u6 = .ok ("[" ++ ip.str ++ "]")) ∧
    (u4 = false → u6 = true → l.find? (fun a => !a.v4) = none →
        resolveAddress none (some l) u4 u6 = .error .noIPv6Found) ∧
    (u4 = false → u6 = false → ∀ ip, l.find? (fun a => a.v4) = some ip →
        resolveAddress none (some l) u4 u6 = .ok ip.str) ∧
    (u4 = false → u6 = false → l.find? (fun a => a.v4) = none →
        ∀ ip, l.find? (fun a => !a.v4) = some ip →
        resolveAddress none (some l) u4 u6 = .ok ("[" ++ ip.str ++ "]")) ∧
    (∀ (v4' v6' : Bool), resolveAddress none none v4' v6' = .error .lookupFailed) ∧
    (∀ (v4' v6' : Bool), resolveAddress none (some []) v4' v6' = .error .emptyList) := by
  have hlen : ¬ l.length = 0 := by
    simpa [List.length_eq_zero] using hne
  refine ⟨?_, ?_, ?_, ?_, ?_, ?_, ?_, ?_⟩
  · intro h4 ip hfind
    subst h4
    simp [resolveAddress, hlen, hfind]
  · intro h4 hfind
    subst h4
    simp [resolveAddress, hlen, hfind]
  · intro h4 h6 ip hfind
    subst h4; subst h6
    simp [resolveAddress, hlen, hfind]
  · intro h4 h6 hfind
    subst h4; subst h6
    simp [resolveAddress, hlen, hfind]
  · intro h4 h6 ip hfind
    subst h4; subst h6
    simp [resolveAddress, hlen, hfind]
  · intro h4 h6 hfind4 ip hfind6
    subst h4; subst h6
    simp [resolveAddress, hlen, hfind4, hfind6]
  · intro v4' v6'
    rfl
  · intro v4' v6'
    rfl

theorem claim_C8_witness :
    resolveAddress none
        (some [⟨false, "2001:db8::1"⟩, ⟨true, "93.184.216.34"⟩]) false false =
      .ok "93.184.216.34" :=
  (claim_C8 [⟨false, "2001:db8::1"⟩, ⟨true, "93.184.216.34"⟩] false false
      (by simp)).2.2.2.2.1 rfl rfl ⟨true, "93.184.216.34"⟩ rfl

/-- The lines of the final summary block (main.go lines 248-263): the
header, the totals line (with the loss rate), and the RTT range line. -/
inductive SummaryLine where
  | header : SummaryLine
  | totals (sent responded lost : Int) (lossRate : Rat) : SummaryLine
  | rtt (minT maxT avgT : Rat) : SummaryLine
deriving DecidableEq

/-- Embeds `func printTCPingStatistics` (main.go lines 248-263): always
prints the header; if sent > 0 prints the totals line with
lossRate = (sent-responded)/sent*100; inside that, if responded > 0 also
prints the min/max/avg RTT line. -/
def printTCPingStatistics (s : Statistics) : List SummaryLine :=
  let g := s.getStats
  SummaryLine.header ::
    (if 0 < g.1 then
      SummaryLine.totals g.1 g.2.1 (g.1 - g.2.1) (((g.1 - g.2.1 : Int) : Rat) / ((g.1 : Int) : Rat) * 100) ::
        (if 0 < g.2.1 then [SummaryLine.rtt g.2.2.1 g.2.2.2.1 g.2.2.2.2] else [])
      else [])

/-- Claim C9: the totals line appears in the summary output exactly when
sentCount > 0, and an RTT line appears only when respondedCount > 0. -/
theorem claim_C9 (s : Statistics) :
    ((∃ a b c d, SummaryLine.totals a b c d ∈ printTCPingStatistics s) ↔ 0 < s.sentCount) ∧
    ((∃ mn mx av, SummaryLine.rtt mn mx av ∈ printTCPingStatistics s) →
      0 < s.respondedCount) := by
  constructor
  · constructor
    · rintro ⟨a, b, c, d, hmem⟩
      by_cases hs : 0 < s.sentCount
      · exact hs
      · exfalso
        simp [printTCPingStatistics, Statistics.getStats, hs] at hmem
    · intro hs
      refine ⟨s.sentCount, s.respondedCount, s.sentCount - s.respondedCount,
        ((s.sentCount - s.respondedCount : Int) : Rat) / ((s.sentCount : Int) : Rat) * 100, ?_⟩
      by_cases hr : 0 < s.respondedCount <;>
        simp [printTCPingStatistics, Statistics.getStats, hs, hr]
  · rintro ⟨mn, mx, av, hmem⟩
    by_cases hr : 0 < s.respondedCount
    · exact hr
    · exfalso
      by_cases hs : 0 < s.sentCount <;>
        simp [printTCPingStatistics, Statistics.getStats, hs, hr] at hmem

theorem claim_C9_witness :
    0 < (⟨2, 1, 3, 4, 7⟩ : Statistics).sentCount ∧
    0 < (⟨2, 1, 3, 4, 7⟩ : Statistics).respondedCount := by
  constructor
  · exact (claim_C9 ⟨2, 1, 3, 4, 7⟩).1.mp
      ⟨2, 1, 1, 50, by norm_num [printTCPingStatistics, Statistics.getStats, List.mem_cons]⟩
  · exact (claim_C9 ⟨2, 1, 3, 4, 7⟩).2
      ⟨3, 4, 7, by norm_num [printTCPingStatistics, Statistics.getStats, List.mem_cons]⟩

/-- Embeds the Go struct `Options` (main.go lines 74-85), fields in
source order. -/
structure Options where
  UseIPv4 : Bool
  UseIPv6 : Bool
  Count : Int
  Interval : Int
  Timeout : Int
  ColorOutput : Bool
  VerboseMode : Bool
  ShowVersion : Bool
  ShowHelp : Bool
  Port : Int
deriving DecidableEq

/-- The error exits of `validateOptions` (main.go lines 314, 318, 322,
327, 343, 345). -/
inductive ValErr where
  | bothFamilies : ValErr
  | negInterval : ValErr
  | negTimeout : ValErr
  | noHost : ValErr
  | badPortFormat : ValErr
  | portRange : ValErr
deriving DecidableEq

/-- The integer value of a list of decimal digit characters. -/
def atoiDigits (ds : List Char) : Int :=
  ds.foldl (fun n d => n * 10 + ((d.toNat : Int) - 48)) 0

/-- Models Go's `strconv.Atoi`: an optional single leading sign followed
by at least one decimal digit; anything else is an error (`none`).
(Go additionally range-checks against the machine int; every port string
this development applies `atoi` to is range-checked right after, so the
overflow error and the range error coincide.) -/
def atoi (s : String) : Option Int :=
  match s.toList with
  | [] => none
  | c :: rest =>
    if c = '-' then
      if rest ≠ [] ∧ rest.all Char.isDigit then some (-(atoiDigits rest)) else none
    else if c = '+' then
      if rest ≠ [] ∧ rest.all Char.isDigit then some (atoiDigits rest) else none
    else
      if (c :: rest).all Char.isDigit then some (atoiDigits (c :: rest)) else none

/-- Embeds `func validateOptions` (main.go lines 311-349): reject both
family flags, a negative interval or timeout, and a missing host; the
effective port is the positional argument if present, else the -p value
when it is positive, else "80"; the port string must parse as an integer
in [1, 65535]. -/
def validateOptions (opts : Options) (args : List String) :
    Except ValErr (String × String) :=
  if opts.UseIPv4 && opts.UseIPv6 then .error .bothFamilies
  else if opts.Interval < 0 then .error .negInterval
  else if opts.Timeout < 0 then .error .negTimeout
  else
    match args with
    | [] => .error .noHost
    | host :: rest =>
      let port :=
        match rest with
        | p :: _ => p
        | [] => if opts.Port > 0 then toString opts.Port else "80"
      match atoi port with
      | none => .error .badPortFormat
      | some portNum =>
        if portNum ≤ 0 || portNum > 65535 then .error .portRange
        else .ok (host, port)

/-- Claim C10: with a host and no positional port, a -p (or --port)
value that is zero or negative is silently ignored — the effective port is the
default "80" and validation succeeds — while a positional port that does
not parse or lies outside [1, 65535] is always rejected. -/
theorem claim_C10 (opts : Options) (host p : String) (rest : List String)
    (hflags : ¬ (opts.UseIPv4 && opts.UseIPv6) = true)
    (hint : ¬ opts.Interval < 0) (htim : ¬ opts.Timeout < 0) :
    (opts.Port ≤ 0 → validateOptions opts [host] = .ok (host, "80")) ∧
    (atoi p = none →
      validateOptions opts (host :: p :: rest) = .error .badPortFormat) ∧
    (∀ n : Int, atoi p = some n → n ≤ 0 ∨ n > 65535 →
      validateOptions opts (host :: p :: rest) = .error .portRange) := by
  refine ⟨?_, ?_, ?_⟩
  · intro hport
    have hnp : ¬ opts.Port > 0 := by omega
    simp only [validateOptions, if_neg hflags, if_neg hint, if_neg htim, if_neg hnp]
    rfl
  · intro hp
    simp only [validateOptions, if_neg hflags, if_neg hint, if_neg htim, hp]
  · intro n hp hrange
    have hor : (n ≤ 0 || n > 65535) = true := by
      rcases hrange with h | h <;> simp [h]
    simp only [validateOptions, if_neg hflags, if_neg hint, if_neg htim, hp, hor, if_pos]

theorem claim_C10_witness :
    validateOptions ⟨false, false, 0, 1000, 1000, false, false, false, false, -5⟩
        ["example.com"] = .ok ("example.com", "80") ∧
    validateOptions ⟨false, false, 0, 1000, 1000, false, false, false, false, -5⟩
        ["example.com", "abc"] = .error .badPortFormat ∧
    validateOptions ⟨false, false, 0, 1000, 1000, false, false, false, false, -5⟩
        ["example.com", "70000"] = .error .portRange := by
  refine ⟨?_, ?_, ?_⟩
  · exact (claim_C10 ⟨false, false, 0, 1000, 1000, false, false, false, false, -5⟩
      "example.com" "x" [] (by decide) (by decide) (by decide)).1 (by decide)
  · exact (claim_C10 ⟨false, false, 0, 1000, 1000, false, false, false, false, -5⟩
      "example.com" "abc" [] (by decide) (by decide) (by decide)).2.1 (by decide)
  · exact (claim_C10 ⟨false, false, 0, 1000, 1000, false, false, false, false, -5⟩
      "example.com" "70000" [] (by decide) (by decide) (by decide)).2.2 70000
      (by decide) (by decide)

end Tcping
